import Mathlib

/-!
Verification of the execution-status core of the risc-bot repository.

The definitions below are a shallow embedding of the Rust sources:
  * `src/cmd/action/exec.rs` — the `ExecStatus` aggregate (output buffer with
    tail truncation, dirty flag, throttled Telegram status pushes, timeout
    labelling) and the `Exec::exec_cmd` orchestration,
  * `src/executor/isolated.rs` — the Docker sandbox invocation builder and the
    synchronous execution helper,
  * `src/executor/normal.rs` — the line-streaming process runner (its per-line
    delivery is represented by explicit lists of delivered lines).

Rust `String`s that undergo byte-indexed truncation are modelled as byte lists
(`List Nat`), because `String::split_off` works on byte indices and panics on
indices that are not UTF-8 character boundaries; fallible operations return
`Option`.  Timestamps (`SystemTime`) and durations are modelled as nanosecond
counts (`Nat`), with `SystemTime::elapsed` returning `Option` exactly as the
Rust API returns `Result`.
-/

namespace RiscBot

/-- The number of bytes to truncate the output log at
(`const OUTPUT_TRUNCATE: usize = 4096 - 150;` in exec.rs). -/
def OUTPUT_TRUNCATE : Nat := 4096 - 150

/-- The timeout duration for commands being executed, in nanoseconds
(`EXEC_TIMEOUT = Duration::from_secs(300)` in exec.rs). -/
def EXEC_TIMEOUT : Nat := 300 * 1000000000

/-- The worst precision of the timeout duration, in nanoseconds
(`EXEC_TIMEOUT_PRECISION = Duration::from_secs(1)` in exec.rs). -/
def EXEC_TIMEOUT_PRECISION : Nat := 1000000000

/-- Model of `std::process::ExitStatus`: an exit status exposes `success()` and
`code() : Option<i32>` (the code is absent when the process was killed by a
signal).  Only these two observations are used by exec.rs. -/
structure ExitStatus where
  success : Bool
  code : Option Int
deriving DecidableEq

/-- Model of `SystemTime::elapsed()` at time `now` for a timestamp `earlier`:
`Ok(now - earlier)` when the clock did not move backwards, `Err` otherwise. -/
def elapsedSince (earlier now : Nat) : Option Nat :=
  if earlier ≤ now then some (now - earlier) else none

/-- The `ExecStatus` record of exec.rs.  The Telegram handle and global state
fields carry no data relevant to the verified operations and are omitted; the
spawned edit request of `update_status_msg` is an external effect and does not
modify the record beyond the fields updated below. -/
structure ExecStatus where
  output : List Nat
  status : Option ExitStatus
  started_at : Nat
  completion_duration : Option Nat
  changed : Bool
  changed_at : Nat
  updated_count : Nat
deriving DecidableEq

/-- Rust `ExecStatus::new` (exec.rs): fresh state at creation time `now`. -/
def ExecStatus.new (now : Nat) : ExecStatus :=
  { output := []
    status := none
    started_at := now
    completion_duration := none
    changed := false
    changed_at := now
    updated_count := 0 }

/-- Whether byte `b` starts a UTF-8 code point (is not a continuation byte);
this is the test Rust's `str::is_char_boundary` applies to the byte at the
index. -/
def isCharBoundaryByte (b : Nat) : Bool := b < 128 || 192 ≤ b

/-- Rust `str::is_char_boundary s i`: true at 0 and at the total length, and
otherwise exactly when the byte at `i` is not a continuation byte. -/
def isCharBoundary (s : List Nat) (i : Nat) : Bool :=
  if i = 0 then true
  else
    match s.get? i with
    | none => i == s.length
    | some b => isCharBoundaryByte b

/-- Rust `ExecStatus::truncating` (exec.rs): the buffer is at (or beyond) the cap. -/
def ExecStatus.truncating (st : ExecStatus) : Bool :=
  OUTPUT_TRUNCATE ≤ st.output.length

/-- Rust `ExecStatus::append` (exec.rs): append `out` to the buffer, then, if the
buffer reached `OUTPUT_TRUNCATE`, keep only its last `OUTPUT_TRUNCATE` bytes
via `String::split_off(len - OUTPUT_TRUNCATE)`; finally mark the state changed
when `out` is nonempty.  `String::split_off` panics when the split index is not
a character boundary, which the model renders as `none`. -/
def ExecStatus.append (st : ExecStatus) (out : List Nat) : Option ExecStatus :=
  if OUTPUT_TRUNCATE ≤ (st.output ++ out).length then
    if isCharBoundary (st.output ++ out) ((st.output ++ out).length - OUTPUT_TRUNCATE) then
      some { st with
              output := (st.output ++ out).drop ((st.output ++ out).length - OUTPUT_TRUNCATE)
              changed := st.changed || !out.isEmpty }
    else none
  else
    some { st with output := st.output ++ out, changed := st.changed || !out.isEmpty }

/-- Rust `ExecStatus::append_line` (exec.rs): append a `"\n"` separator when the
buffer is nonempty, then append the line (byte 10 is the newline). -/
def ExecStatus.append_line (st : ExecStatus) (line : List Nat) : Option ExecStatus :=
  if st.output.isEmpty then st.append line
  else (st.append [10]).bind fun st2 => st2.append line

/-- One `append_line` call threaded through `Option` (panic propagation). -/
def appendLineStep (acc : Option ExecStatus) (l : List Nat) : Option ExecStatus :=
  acc.bind fun s => s.append_line l

/-- Iterated `append_line` over a list of delivered lines, starting from `st`;
`none` as soon as one call panics. -/
def runAppendLines (st : ExecStatus) (lines : List (List Nat)) : Option ExecStatus :=
  lines.foldl appendLineStep (some st)

/-- The newline-joined concatenation of a list of lines (the full output the
claims compare the truncated buffer against). -/
def joinLines : List (List Nat) → List Nat
  | [] => []
  | [l] => l
  | l :: ls => l ++ 10 :: joinLines ls

/-- The suffix of `x` that fits in the truncation budget: all of `x` when it is
within `OUTPUT_TRUNCATE`, its last `OUTPUT_TRUNCATE` bytes otherwise. -/
def suffixFit (x : List Nat) : List Nat := x.drop (x.length - OUTPUT_TRUNCATE)

/-- Rust `ExecStatus::set_status` (exec.rs): mark changed when the new exit status
differs from the stored one, store it, and record `started_at.elapsed().ok()`
as the completion duration. -/
def ExecStatus.set_status (st : ExecStatus) (s : ExitStatus) (now : Nat) : ExecStatus :=
  { st with
    changed := if st.status = some s then st.changed else true
    status := some s
    completion_duration := elapsedSince st.started_at now }

/-- Rust `ExecStatus::completed` (exec.rs). -/
def ExecStatus.completed (st : ExecStatus) : Bool := st.status.isSome

/-- Rust `ExecStatus::throttle_secs` (exec.rs): the step function of
`updated_count as i64 + offset`.  The `usize → i64` cast is modelled exactly
(update counts stay far below `2^63`, one push per elapsed second at most). -/
def ExecStatus.throttle_secs (st : ExecStatus) (offset : Int) : Nat :=
  if (st.updated_count : Int) + offset < 2 then 1
  else if (st.updated_count : Int) + offset < 5 then 3
  else if (st.updated_count : Int) + offset < 8 then 5
  else 10

/-- Rust `ExecStatus::throttling` (exec.rs): `throttle_secs(offset) > 1`. -/
def ExecStatus.throttling (st : ExecStatus) (offset : Int) : Bool :=
  1 < st.throttle_secs offset

/-- Rust `ExecStatus::throttle_duration` (exec.rs), in nanoseconds:
`Duration::from_secs(throttle_secs(0)) - Duration::from_millis(50)` — note the
offset is `0`, and the subtraction never underflows since the step values are
at least one second. -/
def ExecStatus.throttle_duration (st : ExecStatus) : Nat :=
  st.throttle_secs 0 * 1000000000 - 50000000

/-- Rust `ExecStatus::update_status_msg` (exec.rs): spawn the Telegram edit of the
status message (an external fire-and-forget effect, `State::telegram_spawn`,
whose outcome the record never sees), then clear the dirty flag, bump the
update counter and stamp `changed_at`. -/
def ExecStatus.update_status_msg (st : ExecStatus) (now : Nat) : ExecStatus :=
  { st with changed := false, updated_count := st.updated_count + 1, changed_at := now }

/-- Rust `ExecStatus::update` (exec.rs): push only when dirty. -/
def ExecStatus.update (st : ExecStatus) (now : Nat) : ExecStatus :=
  if st.changed then st.update_status_msg now else st

/-- Rust `ExecStatus::update_throttled` (exec.rs): no-op when
`changed_at.elapsed()` errs or is below `throttle_duration`, else `update`. -/
def ExecStatus.update_throttled (st : ExecStatus) (now : Nat) : ExecStatus :=
  match elapsedSince st.changed_at now with
  | some e => if e < st.throttle_duration then st else st.update now
  | none => st

/-- Rust `ExecStatus::timed_out` (exec.rs): the stored exit status must have code
124; then, when a completion duration is known, it must reach
`EXEC_TIMEOUT - EXEC_TIMEOUT_PRECISION`. -/
def ExecStatus.timed_out (st : ExecStatus) : Bool :=
  match st.status with
  | some s =>
    if s.code = some 124 then
      match st.completion_duration with
      | some d => decide (EXEC_TIMEOUT - EXEC_TIMEOUT_PRECISION ≤ d)
      | none => true
    else false
  | none => false

/-- Rendering of whole-second durations by the external humantime crate (a
dependency, not code of this repository), modelled up to hours.  No theorem
below depends on this text: the only fact used about the label built from it is
that it begins with the word "took". -/
def humantimeWhole (secs : Nat) : String :=
  if secs < 60 then toString secs ++ "s"
  else if secs < 3600 then
    toString (secs / 60) ++ "m" ++
      (if secs % 60 = 0 then "" else " " ++ toString (secs % 60) ++ "s")
  else
    toString (secs / 3600) ++ "h" ++
      (if secs % 3600 / 60 = 0 then "" else " " ++ toString (secs % 3600 / 60) ++ "m") ++
      (if secs % 60 = 0 then "" else " " ++ toString (secs % 60) ++ "s")

/-- First word of the external humantime crate's rendering of a sub-second
duration (the code keeps only the first word via `splitn(2, ' ')`).  As with
`humantimeWhole`, no theorem depends on this text. -/
def humantimeSubsecFirst (nanos : Nat) : String :=
  if nanos = 0 then "0s"
  else if 1000000 ≤ nanos then toString (nanos / 1000000) ++ "ms"
  else if 1000 ≤ nanos then toString (nanos / 1000) ++ "us"
  else toString nanos ++ "ns"

/-- Rust `ExecStatus::format_duration` (exec.rs): whole seconds when the duration is
at least one second, otherwise the first word of the sub-second rendering. -/
def ExecStatus.format_duration (st : ExecStatus) : Option String :=
  match st.completion_duration with
  | some d =>
    if 1 ≤ d / 1000000000 then some (humantimeWhole (d / 1000000000))
    else some (humantimeSubsecFirst d)
  | none => none

/-- The status-label list that `ExecStatus::build_status_msg` (exec.rs, lines
320–343) pushes into `status_labels` and renders, comma-joined in parentheses,
inside the status text; the rendered text carries the "timed out" label exactly
when this list contains it.  Label order and contents follow the source:
throttling, timed out, took, truncated/truncating. -/
def status_labels (st : ExecStatus) : List String :=
  (if !st.completed && st.throttling 1 then
    ["throttling " ++ toString (st.throttle_secs 1) ++ "s"]
  else []) ++
  (if st.timed_out then ["timed out"] else []) ++
  (if st.completed && st.completion_duration.isSome then
    ["took " ++ st.format_duration.getD "?"]
  else []) ++
  (if st.truncating then [if st.completed then "truncated" else "truncating"] else [])

/-- The errors of the executor module.  Modelled from the spec: the enum is
declared in `src/executor/mod.rs`, which is not among the provided sources;
its variants are fixed by their uses in `normal.rs` (`Error::Spawn`,
`Error::CollectOutput`, `Error::Complete`) and by the spec's §7 taxonomy
(spawn failure, stream-read failure, wait failure). -/
inductive ExecutorError
  | Spawn
  | CollectOutput
  | Complete
deriving DecidableEq

/-- The argument list of the Docker invocation built by `isolated::execute`
(isolated.rs); the program run with these arguments is `docker`. -/
def isolatedArgs (cmd : String) (reply_text : Option String) : List String :=
  ["run", "--rm", "--workdir", "/root", "--restart", "no",
   "--stop-timeout", "1", "--cpus", "0.2", "--pids-limit", "64"] ++
  (match reply_text with
   | some text => ["--env", "REPLY=" ++ text]
   | none => []) ++
  ["risc-exec", "timeout", "--signal=SIGTERM", "--kill-after=305", "300",
   "bash", "-c", cmd]

/-- The invocation the spec's words describe (§6 external interfaces, with the
concrete resource values of the code): identical to `isolatedArgs` except that
the template writes the timeout signal as `--signal=TERM`.  Kept separate so
the built invocation can be compared against the claim's wording. -/
def claimedIsolatedArgs (cmd : String) (reply_text : Option String) : List String :=
  ["run", "--rm", "--workdir", "/root", "--restart", "no",
   "--stop-timeout", "1", "--cpus", "0.2", "--pids-limit", "64"] ++
  (match reply_text with
   | some text => ["--env", "REPLY=" ++ text]
   | none => []) ++
  ["risc-exec", "timeout", "--signal=TERM", "--kill-after=305", "300",
   "bash", "-c", cmd]

/-- The accumulation buffer built by `isolated::execute_sync` as a function of
the lines the runner delivers to its sink, in delivery order: the closure does
`buf.push_str(&out)` for each line. -/
def execute_sync_buf (lines : List String) : String :=
  lines.foldl (fun buf out => buf ++ out) ""

/-- The accumulation buffer the spec's words describe for `run_sync`: every
received line appended with a separating newline.  Kept separate so the code's
buffer can be compared against the claim's wording. -/
def claimed_sync_buf (lines : List String) : String :=
  lines.foldl (fun buf out => if buf.isEmpty then buf ++ out else buf ++ "\n" ++ out) ""

/-- Rust `isolated::execute_sync` (isolated.rs) as a function of the delivered lines
and the runner's resolution: on success it returns the accumulated buffer
together with the exit status, and it propagates the runner's error. -/
def execute_sync_model (lines : List String) (res : Except ExecutorError ExitStatus) :
    Except ExecutorError (String × ExitStatus) :=
  match res with
  | .ok s => .ok (execute_sync_buf lines, s)
  | .error e => .error e

/-- The error enum of the exec action (exec.rs); opaque Telegram error payloads
are modelled as `Nat`. -/
inductive ExecError
  | Help (e : Nat)
  | StatusMessage (e : Nat)
  | Execute (e : ExecutorError)
deriving DecidableEq

/-- The result value of `Exec::exec_cmd` (exec.rs) as a function of the three
externally decided outcomes it encounters in order: the initial status-message
send (`ExecStatus::create_status_msg`, surfaced with `?`), the command
execution raced against the ticker (surfaced as `Error::Execute`), and the
outcome of the final flush's Telegram edit — which `update_status_msg` merely
spawns (`State::telegram_spawn`), so `exec_cmd` neither awaits it nor sees its
outcome before returning. -/
def exec_cmd_result (createRes : Except Nat ExecStatus)
    (cmdRes : Except ExecutorError ExitStatus)
    (finalEditRes : Except Nat Unit) : Except ExecError Unit :=
  match createRes with
  | .error e => .error (.StatusMessage e)
  | .ok _st =>
    match cmdRes with
    | .error e => .error (.Execute e)
    | .ok _status => .ok ()

/-- The step function of the update count that the spec describes for the
throttle delay. -/
def stepFn (n : Int) : Nat :=
  if n < 2 then 1 else if n < 5 then 3 else if n < 8 then 5 else 10

/-! Concrete inputs used by counterexamples, failing-input evaluations and
witnesses.  Long byte lists are kept behind definitions so proofs can reason
about their lengths without materialising them. -/

/-- A single line of 3945 `a` bytes (just below the truncation budget). -/
def aLine : List Nat := List.replicate 3945 97

/-- Two empty lines followed by `aLine`: the newline-joined concatenation has
3947 bytes and exceeds the budget, but the code skips the separators in front
of the empty buffer. -/
def cexLines : List (List Nat) := [[], [], aLine]

/-- The state `runAppendLines` reaches on `cexLines`. -/
def stCex : ExecStatus :=
  { output := aLine, status := none, started_at := 0, completion_duration := none,
    changed := true, changed_at := 0, updated_count := 0 }

/-- 3943 `a` bytes, the tail of `euroLine`. -/
def euroTail : List Nat := List.replicate 3943 97

/-- The UTF-8 bytes of a euro sign (`0xE2 0x82 0xAC`) followed by 3943 `a`
bytes: a valid 3946-byte UTF-8 line whose first character straddles the
truncation index once one more byte arrives. -/
def euroLine : List Nat := 226 :: 130 :: 172 :: euroTail

/-- The state reached after appending `euroLine` to a fresh buffer. -/
def stEuro : ExecStatus :=
  { output := euroLine, status := none, started_at := 0, completion_duration := none,
    changed := true, changed_at := 0, updated_count := 0 }

/-- The list `euroLine` followed by the line `b`: the second `append_line` first appends
the separator, reaching 3947 bytes, and then splits at byte index 1 — inside
the euro sign. -/
def panicLines : List (List Nat) := [euroLine, [98]]

/-- A state that has seen exactly one push: `throttle_secs 0 = 1` but
`throttle_secs 1 = 3`, separating the code's wait floor from the claimed one. -/
def c2state : ExecStatus :=
  { output := [], status := none, started_at := 0, completion_duration := none,
    changed := true, changed_at := 5, updated_count := 1 }

/-- A completed run: exit code 124 after 299.5 s (within one precision unit of
the 300 s ceiling). -/
def stTimeout : ExecStatus :=
  { output := [104, 105], status := some { success := false, code := some 124 },
    started_at := 0, completion_duration := some 299500000000,
    changed := true, changed_at := 0, updated_count := 0 }

/-- A completed run: exit code 124 after only 10 s (a command that happened to
exit with the sentinel code, not a sandbox timeout). -/
def stQuick124 : ExecStatus :=
  { output := [104, 105], status := some { success := false, code := some 124 },
    started_at := 0, completion_duration := some 10000000000,
    changed := true, changed_at := 0, updated_count := 0 }

/-- A state that has seen nine pushes (deep into the throttle back-off). -/
def stMany : ExecStatus :=
  { output := [], status := none, started_at := 0, completion_duration := none,
    changed := false, changed_at := 0, updated_count := 9 }

/-- A state whose exit status is already set (used by the C8 witness). -/
def stStatusSet : ExecStatus :=
  { output := [], status := some { success := true, code := some 0 },
    started_at := 0, completion_duration := some 7, changed := false,
    changed_at := 0, updated_count := 1 }

/-! Helper lemmas about truncation. -/

theorem suffixFit_of_le {x : List Nat} (h : x.length ≤ OUTPUT_TRUNCATE) : suffixFit x = x := by
  unfold suffixFit
  rw [Nat.sub_eq_zero_of_le h, List.drop_zero]

theorem suffixFit_length (x : List Nat) :
    (suffixFit x).length = x.length - (x.length - OUTPUT_TRUNCATE) := by
  unfold suffixFit
  rw [List.length_drop]

theorem suffixFit_ne_nil {x : List Nat} (h : x ≠ []) : suffixFit x ≠ [] := by
  have hx : 0 < x.length := List.length_pos.mpr h
  have hT : 0 < OUTPUT_TRUNCATE := by norm_num [OUTPUT_TRUNCATE]
  have hlen : 0 < (suffixFit x).length := by
    rw [suffixFit_length]
    omega
  exact List.length_pos.mp hlen

theorem suffixFit_append (a b : List Nat) :
    suffixFit (suffixFit a ++ b) = suffixFit (a ++ b) := by
  rcases Nat.le_total a.length OUTPUT_TRUNCATE with h | h
  · rw [suffixFit_of_le h]
  · unfold suffixFit
    rw [List.length_append, List.length_append, List.length_drop,
      List.drop_append_eq_append_drop, List.drop_append_eq_append_drop, List.drop_drop,
      List.length_drop]
    have e1 : a.length - OUTPUT_TRUNCATE +
        (a.length - (a.length - OUTPUT_TRUNCATE) + b.length - OUTPUT_TRUNCATE)
        = a.length + b.length - OUTPUT_TRUNCATE := by omega
    have e2 : a.length - (a.length - OUTPUT_TRUNCATE) + b.length - OUTPUT_TRUNCATE
        - (a.length - (a.length - OUTPUT_TRUNCATE))
        = a.length + b.length - OUTPUT_TRUNCATE - a.length := by omega
    rw [e1, e2]

theorem append_some_output {st : ExecStatus} {out : List Nat} {st' : ExecStatus}
    (h : st.append out = some st') : st'.output = suffixFit (st.output ++ out) := by
  unfold ExecStatus.append at h
  unfold suffixFit
  generalize hL : st.output ++ out = o at h ⊢
  generalize hk : o.length - OUTPUT_TRUNCATE = k at h ⊢
  by_cases h1 : OUTPUT_TRUNCATE ≤ o.length
  · rw [if_pos h1] at h
    by_cases h2 : isCharBoundary o k = true
    · rw [if_pos h2] at h
      cases h
      rfl
    · rw [if_neg h2] at h
      exact absurd h (by simp)
  · rw [if_neg h1] at h
    cases h
    have hk0 : k = 0 := by omega
    rw [hk0, List.drop_zero]

theorem append_some_length {st : ExecStatus} {out : List Nat} {st' : ExecStatus}
    (h : st.append out = some st') : st'.output.length ≤ OUTPUT_TRUNCATE := by
  have hout := append_some_output h
  rw [hout, suffixFit_length]
  omega

theorem append_line_some_output {st : ExecStatus} {line : List Nat} {st' : ExecStatus}
    (hne : st.output ≠ []) (h : st.append_line line = some st') :
    st'.output = suffixFit (st.output ++ 10 :: line) := by
  unfold ExecStatus.append_line at h
  rw [if_neg (by simpa [List.isEmpty_iff] using hne)] at h
  cases h1 : st.append [10] with
  | none =>
    rw [h1] at h
    simp at h
  | some st1 =>
    rw [h1] at h
    simp only [Option.some_bind] at h
    rw [append_some_output h, append_some_output h1, suffixFit_append, List.append_assoc]
    rfl

theorem append_line_some_length {st : ExecStatus} {line : List Nat} {st' : ExecStatus}
    (h : st.append_line line = some st') : st'.output.length ≤ OUTPUT_TRUNCATE := by
  unfold ExecStatus.append_line at h
  by_cases hemp : st.output.isEmpty = true
  · rw [if_pos hemp] at h
    exact append_some_length h
  · rw [if_neg hemp] at h
    cases h1 : st.append [10] with
    | none =>
      rw [h1] at h
      simp at h
    | some st1 =>
      rw [h1] at h
      simp only [Option.some_bind] at h
      exact append_some_length h

theorem foldl_appendLineStep_none (lines : List (List Nat)) :
    List.foldl appendLineStep none lines = none := by
  induction lines with
  | nil => rfl
  | cons l ls ih => simpa [appendLineStep] using ih

theorem appendLineStep_some (st : ExecStatus) (l : List Nat) :
    appendLineStep (some st) l = st.append_line l := rfl

theorem joinLines_concat :
    ∀ (ls : List (List Nat)), ls ≠ [] → ∀ (l : List Nat),
      joinLines (ls ++ [l]) = joinLines ls ++ 10 :: l := by
  intro ls
  induction ls with
  | nil => intro h; exact absurd rfl h
  | cons a tail ih =>
    intro _ l
    cases tail with
    | nil => simp [joinLines]
    | cons b rest =>
      have h2 := ih (by simp) l
      simp only [List.cons_append, List.append_eq, joinLines] at h2 ⊢
      rw [h2]
      simp [List.append_assoc]

theorem run_suffix :
    ∀ (lines : List (List Nat)), lines ≠ [] → (∀ x ∈ lines.take 1, x ≠ []) →
      ∀ (t0 : Nat) (st' : ExecStatus), runAppendLines (ExecStatus.new t0) lines = some st' →
        st'.output = suffixFit (joinLines lines) ∧ joinLines lines ≠ [] := by
  intro lines
  induction lines using List.reverseRecOn with
  | nil => intro h; exact absurd rfl h
  | append_singleton ls l ih =>
    intro _ hhead t0 st' hrun
    unfold runAppendLines at hrun
    rw [List.foldl_append] at hrun
    cases ls with
    | nil =>
      have hl : l ≠ [] := by
        apply hhead
        simp
      simp only [List.foldl_nil, List.foldl_cons] at hrun
      rw [appendLineStep_some] at hrun
      unfold ExecStatus.append_line at hrun
      rw [if_pos (by rfl)] at hrun
      have hout := append_some_output hrun
      constructor
      · rw [hout]
        simp [joinLines, ExecStatus.new]
      · simpa [joinLines] using hl
    | cons a rest =>
      have hlsne : (a :: rest : List (List Nat)) ≠ [] := by simp
      have hhead' : ∀ x ∈ (a :: rest : List (List Nat)).take 1, x ≠ [] := by
        intro x hx
        apply hhead
        simpa using hx
      cases hls : List.foldl appendLineStep (some (ExecStatus.new t0)) (a :: rest) with
      | none =>
        rw [hls] at hrun
        simp [appendLineStep] at hrun
      | some st0 =>
        rw [hls] at hrun
        simp only [List.foldl_cons, List.foldl_nil] at hrun
        rw [appendLineStep_some] at hrun
        obtain ⟨hout0, hJne⟩ := ih hlsne hhead' t0 st0 hls
        have hne0 : st0.output ≠ [] := by
          rw [hout0]
          exact suffixFit_ne_nil hJne
        have hout' := append_line_some_output hne0 hrun
        rw [joinLines_concat (a :: rest) hlsne l]
        constructor
        · rw [hout', hout0, suffixFit_append]
        · intro hbad
          have hba := congrArg List.length hbad
          simp at hba

theorem run_length :
    ∀ (lines : List (List Nat)) (st st' : ExecStatus),
      st.output.length ≤ OUTPUT_TRUNCATE → runAppendLines st lines = some st' →
        st'.output.length ≤ OUTPUT_TRUNCATE := by
  intro lines
  induction lines with
  | nil =>
    intro st st' hst hrun
    unfold runAppendLines at hrun
    simp only [List.foldl_nil] at hrun
    cases hrun
    exact hst
  | cons l ls ih =>
    intro st st' hst hrun
    unfold runAppendLines at hrun
    simp only [List.foldl_cons] at hrun
    rw [appendLineStep_some] at hrun
    cases h1 : st.append_line l with
    | none =>
      rw [h1, foldl_appendLineStep_none] at hrun
      simp at hrun
    | some st1 =>
      rw [h1] at hrun
      exact ih st1 st' (append_line_some_length h1) hrun

/-! Evaluation of the concrete inputs. -/

theorem aLine_length : aLine.length = 3945 := by
  rw [aLine]
  exact List.length_replicate _ _

theorem aLine_isEmpty : aLine.isEmpty = false := by
  rw [aLine]
  rfl

theorem euroTail_length : euroTail.length = 3943 := by
  rw [euroTail]
  exact List.length_replicate _ _

theorem euroLine_length : euroLine.length = 3946 := by
  rw [euroLine]
  simp only [List.length_cons, euroTail_length]

theorem new_append_line_nil : (ExecStatus.new 0).append_line [] = some (ExecStatus.new 0) := by
  simp [ExecStatus.append_line, ExecStatus.append, ExecStatus.new, OUTPUT_TRUNCATE]

theorem new_append_line_aLine : (ExecStatus.new 0).append_line aLine = some stCex := by
  unfold ExecStatus.append_line
  rw [if_pos (by rfl)]
  unfold ExecStatus.append
  rw [show ((ExecStatus.new 0).output ++ aLine) = aLine from by simp [ExecStatus.new]]
  rw [aLine_length]
  rw [if_neg (by norm_num [OUTPUT_TRUNCATE])]
  rw [show (!aLine.isEmpty) = true from by rw [aLine_isEmpty]; rfl]
  rfl

theorem run_cexLines : runAppendLines (ExecStatus.new 0) cexLines = some stCex := by
  unfold runAppendLines cexLines
  simp only [List.foldl_cons, List.foldl_nil]
  rw [appendLineStep_some, new_append_line_nil]
  rw [appendLineStep_some, new_append_line_nil]
  rw [appendLineStep_some, new_append_line_aLine]

theorem joinLines_cexLines : joinLines cexLines = 10 :: 10 :: aLine := by
  simp [joinLines, cexLines]

theorem suffixFit_cexLines : suffixFit (10 :: 10 :: aLine) = 10 :: aLine := by
  unfold suffixFit
  rw [List.length_cons, List.length_cons, aLine_length]
  rw [show (3945 + 1 + 1 - OUTPUT_TRUNCATE) = 1 from by norm_num [OUTPUT_TRUNCATE]]
  rfl

theorem euroLine_append_new : (ExecStatus.new 0).append_line euroLine = some stEuro := by
  unfold ExecStatus.append_line
  rw [if_pos (by rfl)]
  unfold ExecStatus.append
  rw [show ((ExecStatus.new 0).output ++ euroLine) = euroLine from by simp [ExecStatus.new]]
  rw [euroLine_length]
  rw [if_pos (by norm_num [OUTPUT_TRUNCATE])]
  rw [show (3946 - OUTPUT_TRUNCATE) = 0 from by norm_num [OUTPUT_TRUNCATE]]
  rw [if_pos (by simp [isCharBoundary])]
  rw [List.drop_zero]
  rw [show (!euroLine.isEmpty) = true from by rw [euroLine]; rfl]
  rfl

theorem stEuro_append_ten : stEuro.append [10] = none := by
  have h37 : (stEuro.output ++ [10]).length = 3947 := by
    rw [List.length_append, show stEuro.output = euroLine from rfl, euroLine_length]
    rfl
  unfold ExecStatus.append
  rw [h37]
  rw [if_pos (by norm_num [OUTPUT_TRUNCATE])]
  rw [show (3947 - OUTPUT_TRUNCATE) = 1 from by norm_num [OUTPUT_TRUNCATE]]
  rw [if_neg ?hbn]
  case hbn =>
    rw [show stEuro.output ++ [10] = 226 :: 130 :: 172 :: (euroTail ++ [10]) from by
      rw [show stEuro.output = euroLine from rfl, euroLine]
      simp]
    simp [isCharBoundary, isCharBoundaryByte]

theorem run_panicLines : runAppendLines (ExecStatus.new 0) panicLines = none := by
  unfold runAppendLines panicLines
  simp only [List.foldl_cons, List.foldl_nil]
  rw [appendLineStep_some, euroLine_append_new]
  rw [appendLineStep_some]
  unfold ExecStatus.append_line
  rw [if_neg (by rw [show stEuro.output = euroLine from rfl, euroLine]; simp)]
  rw [stEuro_append_ten]
  rfl

/-! Helper lemmas about throttled updates. -/

theorem update_throttled_def (st : ExecStatus) (now : Nat) :
    st.update_throttled now =
      if st.changed_at ≤ now then
        (if now - st.changed_at < st.throttle_duration then st else st.update now)
      else st := by
  unfold ExecStatus.update_throttled elapsedSince
  by_cases h : st.changed_at ≤ now
  · rw [if_pos h, if_pos h]
  · rw [if_neg h, if_neg h]

/-! Helper lemmas about the status labels. -/

theorem mem_ite_singleton {c : Prop} [Decidable c] {a x : String} :
    (a ∈ if c then [x] else []) ↔ c ∧ a = x := by
  by_cases h : c <;> simp [h]

theorem took_ne_timed_out (z : String) : "took " ++ z ≠ "timed out" := by
  intro h
  have h1 : ("took " ++ z).data.get? 1 = some 'o' := rfl
  rw [h] at h1
  exact absurd h1 (by decide)

theorem throttling_ne_timed_out (z : String) : "throttling " ++ z ++ "s" ≠ "timed out" := by
  intro h
  have h1 : ("throttling " ++ z ++ "s").data.get? 1 = some 'h' := rfl
  rw [h] at h1
  exact absurd h1 (by decide)

theorem timed_out_iff (st : ExecStatus) :
    st.timed_out = true ↔
      ((∃ s, st.status = some s ∧ s.code = some 124) ∧
       (st.completion_duration = none ∨
        ∃ d, st.completion_duration = some d ∧ EXEC_TIMEOUT - EXEC_TIMEOUT_PRECISION ≤ d)) := by
  cases hs : st.status with
  | none => simp [ExecStatus.timed_out, hs]
  | some s =>
    cases hd : st.completion_duration with
    | none =>
      by_cases hc : s.code = some 124
      · simp [ExecStatus.timed_out, hs, hd, hc]
      · simp [ExecStatus.timed_out, hs, hd, hc]
    | some d =>
      by_cases hc : s.code = some 124
      · simp [ExecStatus.timed_out, hs, hd, hc, decide_eq_true_iff]
      · simp [ExecStatus.timed_out, hs, hd, hc]

theorem timed_out_label_mem (st : ExecStatus) :
    "timed out" ∈ status_labels st ↔ st.timed_out = true := by
  unfold status_labels
  simp only [List.mem_append, mem_ite_singleton]
  constructor
  · rintro (((⟨hc1, heq⟩ | ⟨hto, _⟩) | ⟨hc3, heq⟩) | ⟨hc4, heq⟩)
    · exact absurd heq.symm (throttling_ne_timed_out _)
    · exact hto
    · exact absurd heq.symm (took_ne_timed_out _)
    · by_cases hcp : st.completed = true
      · rw [if_pos hcp] at heq
        exact absurd heq (by decide)
      · rw [if_neg hcp] at heq
        exact absurd heq (by decide)
  · intro hto
    exact Or.inl (Or.inl (Or.inr ⟨hto, trivial⟩))

/-! The claim theorems. -/

/-- C1 (amended): for every sequence of `append_line` calls on a fresh
`ExecStatus` whose first appended line is nonempty, if no call panics then
after the calls the output buffer is at most `OUTPUT_TRUNCATE` bytes long and
its content is exactly the suffix of the newline-joined concatenation of the
appended lines that fits the budget (oldest bytes evicted first).  The length
bound also covers every intermediate state, since the theorem applies to every
prefix of the line list.  (The original claim fails when the run starts with
empty lines, because `append_line` skips the separator while the buffer is
empty; see the counterexample.) -/
theorem append_line_truncation_amended (lines : List (List Nat)) (t0 : Nat) (st' : ExecStatus)
    (hhead : ∀ x ∈ lines.take 1, x ≠ [])
    (hrun : runAppendLines (ExecStatus.new t0) lines = some st') :
    st'.output.length ≤ OUTPUT_TRUNCATE ∧ st'.output = suffixFit (joinLines lines) := by
  constructor
  · exact run_length lines (ExecStatus.new t0) st' (by simp [ExecStatus.new]) hrun
  · cases lines with
    | nil =>
      unfold runAppendLines at hrun
      simp only [List.foldl_nil] at hrun
      cases hrun
      simp [ExecStatus.new, joinLines, suffixFit, List.drop_nil]
    | cons a rest =>
      exact (run_suffix (a :: rest) (by simp) hhead t0 st' hrun).1

/-- Witness for C1's amended theorem at the lines `"a"`, `"b"`. -/
theorem append_line_truncation_amended_witness :
    ({ output := [97, 10, 98], status := none, started_at := 0, completion_duration := none,
       changed := true, changed_at := 0, updated_count := 0 } : ExecStatus).output.length
        ≤ OUTPUT_TRUNCATE ∧
    ({ output := [97, 10, 98], status := none, started_at := 0, completion_duration := none,
       changed := true, changed_at := 0, updated_count := 0 } : ExecStatus).output
        = suffixFit (joinLines [[97], [98]]) :=
  append_line_truncation_amended [[97], [98]] 0 _ (by decide) (by decide)

/-- C1 counterexample: two empty lines followed by a 3945-byte line.  The
newline-joined concatenation has 3947 bytes and exceeds the budget, yet the
buffer holds only the 3945-byte line, not the 3946-byte suffix that fits. -/
theorem append_line_truncation_cex :
    OUTPUT_TRUNCATE < (joinLines cexLines).length ∧
    runAppendLines (ExecStatus.new 0) cexLines = some stCex ∧
    stCex.output ≠ suffixFit (joinLines cexLines) := by
  refine ⟨?_, run_cexLines, ?_⟩
  · rw [joinLines_cexLines, List.length_cons, List.length_cons, aLine_length]
    norm_num [OUTPUT_TRUNCATE]
  · rw [joinLines_cexLines, suffixFit_cexLines]
    rw [show stCex.output = aLine from rfl]
    intro h
    have hlen := congrArg List.length h
    rw [aLine_length, List.length_cons, aLine_length] at hlen
    omega

/-- C2 (amended): `update_throttled` is a no-op when the elapsed time since
`changed_at` is below `throttle_duration`, which is `throttle_secs 0` seconds
minus the 50 ms slack — the wait floor is computed with update-count offset 0,
the current count, not offset 1 as the claim states — and also when the clock
moved backwards; otherwise it behaves exactly as `update`. -/
theorem update_throttled_amended (st : ExecStatus) (now : Nat) :
    st.throttle_duration = st.throttle_secs 0 * 1000000000 - 50000000 ∧
    (st.changed_at ≤ now → now - st.changed_at < st.throttle_duration →
      st.update_throttled now = st) ∧
    (st.changed_at ≤ now → st.throttle_duration ≤ now - st.changed_at →
      st.update_throttled now = st.update now) ∧
    (now < st.changed_at → st.update_throttled now = st) := by
  refine ⟨rfl, ?_, ?_, ?_⟩
  · intro h1 h2
    rw [update_throttled_def, if_pos h1, if_pos h2]
  · intro h1 h2
    rw [update_throttled_def, if_pos h1, if_neg (by omega)]
  · intro h1
    rw [update_throttled_def, if_neg (by omega)]

/-- Witness for C2's amended theorem: a fresh state is throttled at elapsed 0,
and `c2state` (one past push) does push after 2 s. -/
theorem update_throttled_amended_witness :
    (ExecStatus.new 0).update_throttled 0 = ExecStatus.new 0 ∧
    c2state.update_throttled (5 + 2000000000) = c2state.update (5 + 2000000000) :=
  ⟨(update_throttled_amended (ExecStatus.new 0) 0).2.1 (by decide) (by decide),
   (update_throttled_amended c2state (5 + 2000000000)).2.2.1 (by decide) (by decide)⟩

/-- C2 counterexample: after exactly one push, the claimed wait floor
(offset 1) is 3 s − 50 ms, yet at elapsed 2 s the code does push — the state
changes — because the code computes the floor with offset 0 (1 s − 50 ms). -/
theorem update_throttled_offset_cex :
    2000000000 < c2state.throttle_secs 1 * 1000000000 - 50000000 ∧
    c2state.changed_at ≤ 5 + 2000000000 ∧
    (5 + 2000000000) - c2state.changed_at = 2000000000 ∧
    c2state.update_throttled (5 + 2000000000) ≠ c2state := by
  refine ⟨by decide, by decide, by decide, by decide⟩

/-- C3 (amended): `execute_sync` accumulates every delivered line by direct
concatenation — `push_str` adds no separating newline — so on success it
returns the plain concatenation of all delivered lines (no content lost, no
truncation) with the resolved exit status, and it propagates the runner's
error on failure. -/
theorem execute_sync_amended (lines : List String) (s : ExitStatus) :
    execute_sync_model lines (Except.ok s) = Except.ok (String.join lines, s) ∧
    ∀ e, execute_sync_model lines (Except.error e) = Except.error e := by
  constructor
  · rfl
  · intro e
    rfl

/-- C3 counterexample: two delivered lines `"a"`, `"b"` produce the buffer
`"ab"`, not the newline-separated `"a\nb"` the claim describes. -/
theorem execute_sync_separator_cex :
    execute_sync_buf ["a", "b"] = "ab" ∧
    claimed_sync_buf ["a", "b"] = "a\nb" ∧
    execute_sync_buf ["a", "b"] ≠ claimed_sync_buf ["a", "b"] := by
  refine ⟨by decide, by decide, by decide⟩

/-- C4 (amended): `exec_cmd` surfaces the failure of the initial
status-message send and of the command execution, but its result never depends
on the outcome of the final flush's Telegram edit: `update_status_msg` only
spawns that edit, so the run is declared complete without waiting for it and
its failure is logged, never propagated. -/
theorem exec_cmd_error_propagation (e : Nat) (x : ExecutorError) (st : ExecStatus)
    (s : ExitStatus) (cmdRes : Except ExecutorError ExitStatus) (fe fe2 : Except Nat Unit) :
    exec_cmd_result (Except.error e) cmdRes fe = Except.error (ExecError.StatusMessage e) ∧
    exec_cmd_result (Except.ok st) (Except.error x) fe = Except.error (ExecError.Execute x) ∧
    exec_cmd_result (Except.ok st) (Except.ok s) fe = Except.ok () ∧
    exec_cmd_result (Except.ok st) (Except.ok s) fe
      = exec_cmd_result (Except.ok st) (Except.ok s) fe2 :=
  ⟨rfl, rfl, rfl, rfl⟩

/-- C4 counterexample: with the initial send and the command both succeeding
and the final flush's edit failing, `exec_cmd` still returns success — the
final-flush edit failure is not surfaced and not awaited. -/
theorem exec_cmd_final_flush_cex :
    exec_cmd_result (Except.ok (ExecStatus.new 0))
      (Except.ok { success := true, code := some 0 }) (Except.error 7) = Except.ok () := rfl

/-- C5: the rendered status carries the "timed out" label exactly when the
stored exit status has code 124 and the completion duration is unknown or at
least `EXEC_TIMEOUT - EXEC_TIMEOUT_PRECISION` (300 s − 1 s); in particular a
299.5 s completion with code 124 is labelled and a 10 s completion with code
124 is not. -/
theorem timed_out_label_spec :
    (∀ st : ExecStatus,
      "timed out" ∈ status_labels st ↔
        ((∃ s, st.status = some s ∧ s.code = some 124) ∧
         (st.completion_duration = none ∨
          ∃ d, st.completion_duration = some d ∧
            EXEC_TIMEOUT - EXEC_TIMEOUT_PRECISION ≤ d))) ∧
    "timed out" ∈ status_labels stTimeout ∧
    "timed out" ∉ status_labels stQuick124 := by
  refine ⟨fun st => (timed_out_label_mem st).trans (timed_out_iff st), ?_, ?_⟩
  · exact (timed_out_label_mem stTimeout).mpr (by decide)
  · intro h
    exact absurd ((timed_out_label_mem stQuick124).mp h) (by decide)

/-- C6: `throttle_secs` is exactly the spec's step function of
`updated_count + offset` (1 s below 2, 3 s below 5, 5 s below 8, 10 s else),
and is monotonically non-decreasing in the update count. -/
theorem throttle_secs_step_mono (st st2 : ExecStatus) (o : Int) :
    st.throttle_secs o = stepFn ((st.updated_count : Int) + o) ∧
    (st.updated_count ≤ st2.updated_count → st.throttle_secs o ≤ st2.throttle_secs o) := by
  constructor
  · rfl
  · intro h
    have h2 : (st.updated_count : Int) + o ≤ (st2.updated_count : Int) + o := by
      have hc : (st.updated_count : Int) ≤ (st2.updated_count : Int) := by exact_mod_cast h
      omega
    unfold ExecStatus.throttle_secs
    split_ifs <;> omega

/-- Witness for C6 at counts 0 and 9. -/
theorem throttle_secs_step_mono_witness :
    (ExecStatus.new 0).throttle_secs 0 = stepFn 0 ∧
    (ExecStatus.new 0).throttle_secs 0 ≤ stMany.throttle_secs 0 :=
  ⟨(throttle_secs_step_mono (ExecStatus.new 0) stMany 0).1,
   (throttle_secs_step_mono (ExecStatus.new 0) stMany 0).2 (by decide)⟩

/-- C7 (amended): the sandbox command builder always succeeds — it is a total
string construction — and produces exactly the Docker invocation of the
source, whose timeout signal argument is written `--signal=SIGTERM` (the claim
writes `--signal=TERM`); the `--env REPLY=<text>` pair is present exactly when
the context text is present. -/
theorem isolated_invocation_amended (cmd t : String) :
    isolatedArgs cmd none =
      ["run", "--rm", "--workdir", "/root", "--restart", "no",
       "--stop-timeout", "1", "--cpus", "0.2", "--pids-limit", "64",
       "risc-exec", "timeout", "--signal=SIGTERM", "--kill-after=305", "300",
       "bash", "-c", cmd] ∧
    isolatedArgs cmd (some t) =
      ["run", "--rm", "--workdir", "/root", "--restart", "no",
       "--stop-timeout", "1", "--cpus", "0.2", "--pids-limit", "64",
       "--env", "REPLY=" ++ t,
       "risc-exec", "timeout", "--signal=SIGTERM", "--kill-after=305", "300",
       "bash", "-c", cmd] := by
  constructor <;> rfl

/-- C7 counterexample: the built invocation differs from the claim's template,
which writes the signal as `--signal=TERM`; the code emits `--signal=SIGTERM`
and no `--signal=TERM` argument appears. -/
theorem isolated_invocation_signal_cex :
    isolatedArgs "echo hi" none ≠ claimedIsolatedArgs "echo hi" none ∧
    "--signal=SIGTERM" ∈ isolatedArgs "echo hi" none ∧
    "--signal=TERM" ∉ isolatedArgs "echo hi" none :=
  ⟨by decide, by decide, by decide⟩

/-- C8: a `set_status` call whose argument equals the stored status leaves the
dirty flag unchanged (a second identical call does not mark dirty), and a call
whose argument differs from the stored value — including the first call, when
nothing is stored — always marks dirty. -/
theorem set_status_dirty (st : ExecStatus) (s : ExitStatus) (now : Nat) :
    (st.status = some s → (st.set_status s now).changed = st.changed) ∧
    (st.status ≠ some s → (st.set_status s now).changed = true) := by
  constructor
  · intro h
    unfold ExecStatus.set_status
    rw [if_pos h]
  · intro h
    unfold ExecStatus.set_status
    rw [if_neg h]

/-- Witness for C8: the first set on a fresh state marks dirty; re-setting the
already-stored status of `stStatusSet` leaves the flag unchanged (false). -/
theorem set_status_dirty_witness :
    ((ExecStatus.new 0).set_status { success := false, code := some 0 } 3).changed = true ∧
    (stStatusSet.set_status { success := true, code := some 0 } 9).changed
      = stStatusSet.changed :=
  ⟨(set_status_dirty (ExecStatus.new 0) { success := false, code := some 0 } 3).2 (by decide),
   (set_status_dirty stStatusSet { success := true, code := some 0 } 9).1 (by decide)⟩

/-- C9: appending a 3946-byte line starting with the euro sign and then the
line `"b"` makes `append` split the buffer at byte index 1, inside the
three-byte UTF-8 character, so `String::split_off` panics: the run aborts
(`none`) because the truncation index is not a character boundary. -/
theorem append_line_utf8_panic :
    runAppendLines (ExecStatus.new 0) panicLines = none ∧
    isCharBoundary (euroLine ++ [10]) 1 = false := by
  refine ⟨run_panicLines, ?_⟩
  rw [show euroLine ++ [10] = 226 :: 130 :: 172 :: (euroTail ++ [10]) from by
    rw [euroLine]
    simp]
  simp [isCharBoundary, isCharBoundaryByte]

/-- C10: a push (`update_status_msg`) only clears the dirty flag, increments
`updated_count` by exactly one and stamps `changed_at` with the current time;
`output`, `status`, `started_at` and `completion_duration` are untouched.
`update` and `update_throttled` either leave the state unchanged or perform
exactly such a push. -/
theorem push_frame (st : ExecStatus) (now : Nat) :
    ((st.update_status_msg now).output = st.output ∧
     (st.update_status_msg now).status = st.status ∧
     (st.update_status_msg now).started_at = st.started_at ∧
     (st.update_status_msg now).completion_duration = st.completion_duration ∧
     (st.update_status_msg now).changed = false ∧
     (st.update_status_msg now).updated_count = st.updated_count + 1 ∧
     (st.update_status_msg now).changed_at = now) ∧
    (st.update now = st ∨ st.update now = st.update_status_msg now) ∧
    (st.update_throttled now = st ∨ st.update_throttled now = st.update_status_msg now) := by
  refine ⟨⟨rfl, rfl, rfl, rfl, rfl, rfl, rfl⟩, ?_, ?_⟩
  · unfold ExecStatus.update
    by_cases h : st.changed = true
    · rw [if_pos h]
      exact Or.inr rfl
    · rw [if_neg h]
      exact Or.inl rfl
  · rw [update_throttled_def]
    by_cases h1 : st.changed_at ≤ now
    · rw [if_pos h1]
      by_cases h2 : now - st.changed_at < st.throttle_duration
      · rw [if_pos h2]
        exact Or.inl rfl
      · rw [if_neg h2]
        unfold ExecStatus.update
        by_cases h3 : st.changed = true
        · rw [if_pos h3]
          exact Or.inr rfl
        · rw [if_neg h3]
          exact Or.inl rfl
    · rw [if_neg h1]
      exact Or.inl rfl

end RiscBot
